import Mathlib

/-!
Verification development for the style-profiling core of the repository:
a shallow embedding of `code_analyzer.py`, `style_dna.py` and
`language_detector.py`, plus theorems checking the specification's claims
about them.

Python's `ast.parse` / tree walk (`analyze_ast`) is a foreign parser; its
per-file output is abstracted as oracle data (`AstInfo` / `ParseOutcome`)
carried by each file, while everything `code_analyzer.py` computes from the
raw text (line counts, comment counts, the regex fallback) and everything
downstream of the per-file patterns is embedded executably.
Python floats are modelled as exact rationals; `round(x, 1)` is modelled as
round-half-to-even at one decimal; `int(x)` as truncation toward zero.
-/

namespace Vibe

/-- ASCII whitespace as Python's `str.strip` / regex `\s` treat it:
space, tab, newline, carriage return, vertical tab, form feed. -/
def pySpace (c : Char) : Bool :=
  c == ' ' || c == '\t' || c == '\n' || c == '\r' || c == Char.ofNat 11 || c == Char.ofNat 12

/-- Python truthiness of `content.strip()`: true iff every character is
whitespace (this includes the empty string). -/
def pyStripIsEmpty (s : String) : Bool :=
  s.toList.all pySpace

/-- Python `str.split(sep)` for a one-character separator, on the
character list (structurally recursive so that the kernel can evaluate it;
`String.splitOn` is defined by well-founded recursion). -/
def splitOnChar (sep : Char) : List Char → List (List Char)
  | [] => [[]]
  | c :: rest =>
    let r := splitOnChar sep rest
    if c = sep then [] :: r
    else
      match r with
      | h :: t => (c :: h) :: t
      | [] => [[c]]

/-- Python's `c in s` on a string (kernel-evaluable form of
`String.contains`). -/
def pyInStr (c : Char) (s : String) : Bool :=
  s.toList.contains c

/-- Python `str.lower()` on a character list (ASCII). -/
def pyLower (l : List Char) : List Char :=
  l.map Char.toLower

/-- Python `len(content.split('\n'))`. -/
def numLines (s : String) : Nat :=
  (splitOnChar '\n' s.toList).length

/-- A character is cased (for Python's `str.islower` / `str.isupper`),
restricted to ASCII letters as identifiers use. -/
def pyCased (c : Char) : Bool :=
  c.isLower || c.isUpper

/-- Python `s.islower()`: at least one cased character and no upper-case one. -/
def pyIsLower (s : String) : Bool :=
  s.toList.any pyCased && s.toList.all (fun c => !c.isUpper)

/-- Python `s.isupper()`: at least one cased character and no lower-case one. -/
def pyIsUpper (s : String) : Bool :=
  s.toList.any pyCased && s.toList.all (fun c => !c.isLower)

/-- The first character of an identifier (`name[0]` in Python).  All
identifiers fed to the classifiers are nonempty (AST identifiers and the
regex fallback's matches are nonempty), so the default for `""` is
unreachable; a space is used, which is neither upper nor lower case. -/
def strHead (s : String) : Char :=
  s.toList.headD ' '

/-- Python `line.strip()` on a list of characters. -/
def pyStrip (l : List Char) : List Char :=
  ((l.dropWhile pySpace).reverse.dropWhile pySpace).reverse

/-- Number of comment lines of a source text, as `analyze_ast` counts them:
lines whose stripped form starts with `#` and has length greater than 1. -/
def commentLines (s : String) : Nat :=
  (splitOnChar '\n' s.toList).countP fun line =>
    match pyStrip line with
    | c :: rest => c == '#' && decide (0 < rest.length)
    | [] => false

/-- Character class `[a-z_]` (start of the fallback regex's identifier). -/
def identStart (c : Char) : Bool :=
  c.isLower || c == '_'

/-- Character class `[a-z0-9_]` (continuation of the fallback identifier). -/
def identChar (c : Char) : Bool :=
  c.isLower || c.isDigit || c == '_'

/-- Regex word character `\w` (ASCII): used for `\b` word boundaries. -/
def isWordChar (c : Char) : Bool :=
  c.isAlphanum || c == '_'

/-- Scanner for Python's `re.findall(r'\b([a-z_][a-z0-9_]*)\s*=', content)`,
the degraded extraction used on syntax errors.  `prev` is the character
before the current position (for the `\b`), `fuel` bounds recursion (always
called with more fuel than characters, so it never runs out).  Matches are
non-overlapping and scanning resumes after the consumed `=`, as `findall`
does; on a failed attempt the scanner advances one character. -/
def findAssignAux : Nat → Option Char → List Char → List String
  | 0, _, _ => []
  | _ + 1, _, [] => []
  | fuel + 1, prev, c :: rest =>
    if (match prev with | none => true | some p => !isWordChar p) && identStart c then
      let tl := rest.takeWhile identChar
      let rest2 := rest.dropWhile identChar
      match rest2.dropWhile pySpace with
      | '=' :: rest3 => String.mk (c :: tl) :: findAssignAux fuel (some '=') rest3
      | _ => findAssignAux fuel (some c) rest
    else
      findAssignAux fuel (some c) rest

/-- All identifiers matched by the degraded-mode assignment regex. -/
def findAssignIdents (s : String) : List String :=
  findAssignAux (s.toList.length + 1) none s.toList

/-- Result of running CPython's `ast.parse` + `analyze_ast` tree walk on one
file: the data the walk extracts from the syntax tree.  (`total_lines` and
`comment_lines`, which `analyze_ast` computes from the raw text, are instead
computed in Lean from the file's content.) -/
structure AstInfo where
  function_names : List String := []
  variable_names : List String := []
  class_names : List String := []
  has_docstrings : Nat := 0
  total_functions : Nat := 0
  has_type_hints : Nat := 0
  functions_with_type_hints : Nat := 0
  try_except : Nat := 0
  if_else : Nat := 0
  function_lengths : List Nat := []
  total_classes : Nat := 0
  has_module_docstring : Nat := 0
deriving DecidableEq, Repr

/-- Outcome of `ast.parse(content)` on a file: a parsed tree (summarised by
the tree walk's `AstInfo`), a `SyntaxError`, or any other exception. -/
inductive ParseOutcome where
  | ok (info : AstInfo)
  | syntaxError
  | otherError
deriving DecidableEq, Repr

/-- One input file for `analyze_code_files`: filename, raw content, and the
(oracle) outcome of parsing that content with Python's `ast`. -/
structure PyFile where
  filename : String := ""
  content : String := ""
  parse : ParseOutcome := ParseOutcome.syntaxError
deriving DecidableEq, Repr

/-- The `all_patterns` accumulator dictionary of `analyze_code_files`. -/
structure AllPatterns where
  function_names : List String := []
  variable_names : List String := []
  has_docstrings : Nat := 0
  total_functions : Nat := 0
  has_type_hints : Nat := 0
  functions_with_type_hints : Nat := 0
  try_except : Nat := 0
  if_else : Nat := 0
  function_lengths : List Nat := []
  total_lines : Nat := 0
  class_names : List String := []
  total_classes : Nat := 0
  has_module_docstring : Nat := 0
  comment_lines : Nat := 0
  files_analyzed : Nat := 0
deriving DecidableEq, Repr

/-- The zero-valued accumulator `analyze_code_files` starts from. -/
def initPatterns : AllPatterns := {}

/-- The body of the per-file loop of `analyze_code_files`: skip blank files;
on a successful parse aggregate the tree walk's data plus the text-derived
line counts; on `SyntaxError` fall back to the assignment regex and line
count; on any other exception count only lines and the file.  Every
exception is caught inside the loop, so the step (and hence the whole
analysis) is a total function. -/
def processFile (acc : AllPatterns) (f : PyFile) : AllPatterns :=
  if pyStripIsEmpty f.content then acc
  else
    match f.parse with
    | ParseOutcome.ok info =>
      { acc with
        function_names := acc.function_names ++ info.function_names
        variable_names := acc.variable_names ++ info.variable_names
        has_docstrings := acc.has_docstrings + info.has_docstrings
        total_functions := acc.total_functions + info.total_functions
        has_type_hints := acc.has_type_hints + info.has_type_hints
        functions_with_type_hints :=
          acc.functions_with_type_hints + info.functions_with_type_hints
        try_except := acc.try_except + info.try_except
        if_else := acc.if_else + info.if_else
        function_lengths := acc.function_lengths ++ info.function_lengths
        total_lines := acc.total_lines + numLines f.content
        class_names := acc.class_names ++ info.class_names
        total_classes := acc.total_classes + info.total_classes
        has_module_docstring := acc.has_module_docstring + info.has_module_docstring
        comment_lines := acc.comment_lines + commentLines f.content
        files_analyzed := acc.files_analyzed + 1 }
    | ParseOutcome.syntaxError =>
      if f.content = "" then acc
      else
        { acc with
          variable_names := acc.variable_names ++ findAssignIdents f.content
          total_lines := acc.total_lines + numLines f.content
          files_analyzed := acc.files_analyzed + 1 }
    | ParseOutcome.otherError =>
      if f.content = "" then acc
      else
        { acc with
          total_lines := acc.total_lines + numLines f.content
          files_analyzed := acc.files_analyzed + 1 }

/-- The aggregation loop of `analyze_code_files` over the whole batch. -/
def allPatternsOf (files : List PyFile) : AllPatterns :=
  files.foldl processFile initPatterns

/-- Exact rational value with a positive denominator, modelling the Python
float values flowing through the analyzer (all of which are ratios of small
integers).  Kept unnormalized so that all operations are plain integer
arithmetic the kernel can evaluate; comparisons are value-level
(cross-multiplication), and every value stored in the final report is
rounded to an integer number of tenths first. -/
structure Frac where
  num : Int
  den : Int
  den_pos : 0 < den

instance : DecidableEq Frac := fun a b =>
  decidable_of_iff (a.num = b.num ∧ a.den = b.den) (by cases a; cases b; simp)

/-- Embed an integer as a fraction. -/
def Frac.ofInt (n : Int) : Frac := ⟨n, 1, by norm_num⟩

/-- The exact rational value of a fraction (used only in proofs). -/
def Frac.val (x : Frac) : ℚ := (x.num : ℚ) / (x.den : ℚ)

/-- Value-level strict comparison of fractions. -/
def Frac.lt (a b : Frac) : Prop := a.num * b.den < b.num * a.den

/-- Value-level comparison of fractions. -/
def Frac.le (a b : Frac) : Prop := a.num * b.den ≤ b.num * a.den

/-- Value-level equality of fractions (Python `==` on the floats). -/
def Frac.feq (a b : Frac) : Prop := a.num * b.den = b.num * a.den

instance (a b : Frac) : Decidable (Frac.lt a b) := Int.decLt _ _

instance (a b : Frac) : Decidable (Frac.le a b) := Int.decLe _ _

instance (a b : Frac) : Decidable (Frac.feq a b) := Int.decEq _ _

/-- Fraction addition. -/
def Frac.add (a b : Frac) : Frac :=
  ⟨a.num * b.den + b.num * a.den, a.den * b.den, mul_pos a.den_pos b.den_pos⟩

/-- Fraction minus an integer. -/
def Frac.subInt (a : Frac) (k : Int) : Frac :=
  ⟨a.num - k * a.den, a.den, a.den_pos⟩

/-- Fraction times an integer. -/
def Frac.mulInt (a : Frac) (k : Int) : Frac :=
  ⟨a.num * k, a.den, a.den_pos⟩

/-- Fraction divided by a positive integer. -/
def Frac.divInt (a : Frac) (k : Int) (h : 0 < k) : Frac :=
  ⟨a.num, a.den * k, mul_pos a.den_pos h⟩

/-- Python `max(a, b)` on two floats: replaces the running value only on a
strictly greater candidate, so ties keep the first argument. -/
def pyMax2 (a b : Frac) : Frac := if Frac.lt a b then b else a

/-- Python `min(a, b)` on two floats: ties keep the first argument. -/
def pyMin2 (a b : Frac) : Frac := if Frac.lt b a then b else a

/-- The float `(count / total) * 100` (a percentage with `total > 0`). -/
def pct (count total : Nat) (h : 0 < total) : Frac :=
  ⟨(count : Int) * 100, (total : Int), by exact_mod_cast h⟩

/-- Python `int(x)`: truncation toward zero (Lean's `Int` division `/` is
floor division for a positive divisor, so the negative case is negated). -/
def pyIntF (x : Frac) : Int :=
  if 0 ≤ x.num then x.num / x.den else -((-x.num) / x.den)

/-- Python `round(x, 1)` scaled by ten: the nearest integer to `10 * x`,
ties going to the even integer, which is exactly the number of tenths of
the rounded float. -/
def round1F (x : Frac) : Int :=
  let t := x.num * 10
  let f := t / x.den
  let r := t - f * x.den
  if 2 * r < x.den then f
  else if x.den < 2 * r then f + 1
  else if f % 2 = 0 then f else f + 1

/-- The trivial-name stoplist of `detect_naming_style`. -/
def shortNames : List String := ["i", "j", "k", "x", "y", "z", "id", "ok"]

/-- The filter of `detect_naming_style`: keep names of length above one that
are not on the stoplist. -/
def keepName (n : String) : Bool :=
  decide (1 < n.length) && !(shortNames.contains n)

/-- First branch of the per-name loop of `detect_naming_style`:
`'_' in name and name.islower()`. -/
def caIsSnake (n : String) : Bool :=
  pyInStr '_' n && pyIsLower n

/-- Second branch: `name[0].isupper() and '_' not in name` (reached only
when the snake branch failed). -/
def caIsPascal (n : String) : Bool :=
  !caIsSnake n && ((strHead n).isUpper && !(pyInStr '_' n))

/-- Third branch: `name[0].islower() and '_' not in name` (reached only when
the previous branches failed). -/
def caIsCamel (n : String) : Bool :=
  !caIsSnake n && !((strHead n).isUpper && !(pyInStr '_' n)) &&
    ((strHead n).isLower && !(pyInStr '_' n))

/-- The name classified by the per-name loop of `detect_naming_style`, if
any: an entirely upper-case name with underscores falls through all three
branches and is tallied into no bucket. -/
def caClassify (n : String) : Option String :=
  if caIsSnake n then some "snake_case"
  else if (strHead n).isUpper && !(pyInStr '_' n) then some "PascalCase"
  else if (strHead n).isLower && !(pyInStr '_' n) then some "camelCase"
  else none

/-- The tail of `detect_naming_style` once the style counts and the total
are known: percentage thresholds at 50, otherwise the most common style
(Python's `max` of the three percentages, ties to the earlier argument). -/
def detectFromCounts (total snake camel pascal : Nat) : String × Frac :=
  if h : total = 0 then ("snake_case", Frac.ofInt 0)
  else
    have ht : 0 < total := Nat.pos_of_ne_zero h
    let spct := pct snake total ht
    let cpct := pct camel total ht
    let ppct := pct pascal total ht
    if Frac.le (Frac.ofInt 50) spct then ("snake_case", spct)
    else if Frac.le (Frac.ofInt 50) cpct then ("camelCase", cpct)
    else if Frac.le (Frac.ofInt 50) ppct then ("PascalCase", ppct)
    else
      let mx := pyMax2 (pyMax2 spct cpct) ppct
      if Frac.feq mx spct then ("snake_case", spct)
      else if Frac.feq mx cpct then ("camelCase", cpct)
      else ("PascalCase", ppct)

/-- Function `detect_naming_style` of `code_analyzer.py`: returns the dominant style
and its (unrounded) confidence percentage.  The per-name loop's three
counters are the counts of the corresponding branch conditions. -/
def detect_naming_style (names : List String) : String × Frac :=
  if names = [] then ("snake_case", Frac.ofInt 0)
  else
    let filtered := names.filter keepName
    let filtered2 := if filtered = [] then names else filtered
    detectFromCounts filtered2.length (filtered2.countP caIsSnake)
      (filtered2.countP caIsCamel) (filtered2.countP caIsPascal)

/-- Core of `detect_error_handling_style` on the two counters. -/
def errorStyleCore (te ie : Nat) : String :=
  if te + ie = 0 then "basic"
  else if ie * 2 < te then "try_except"
  else if te * 2 < ie then "if_else"
  else "mixed"

/-- Function `detect_error_handling_style` of `code_analyzer.py`. -/
def detect_error_handling_style (p : AllPatterns) : String :=
  errorStyleCore p.try_except p.if_else

/-- The raw score accumulated by `calculate_code_quality` of
`code_analyzer.py` before the final truncation/clamp: base 40; up to +20
for docstring coverage (or +10 for a module docstring when there are no
functions); up to +15 for type-hint coverage; up to +15 for comment density
above 10%; +10 for any error handling; +10 for any function or class; then
the function-length penalty (note the source's `elif avg_length > 100`
branch is unreachable, since any average above 100 already satisfies
`avg_length > 50`, so only 10 is ever subtracted); floor at 30 whenever any
line was counted. -/
def qualityScoreF (p : AllPatterns) : Frac :=
  let score := Frac.ofInt 40
  let score :=
    if h : 0 < p.total_functions then
      Frac.add score
        (Frac.mulInt
          (Frac.divInt (pct p.has_docstrings p.total_functions h) 100 (by norm_num)) 20)
    else if 0 < p.has_module_docstring then Frac.add score (Frac.ofInt 10)
    else score
  let score :=
    if h : 0 < p.total_functions then
      Frac.add score
        (Frac.mulInt
          (Frac.divInt (pct p.functions_with_type_hints p.total_functions h) 100
            (by norm_num)) 15)
    else score
  let score :=
    if h : 0 < p.total_lines then
      let cov := pct p.comment_lines p.total_lines h
      if Frac.lt (Frac.ofInt 10) cov then
        Frac.add score (pyMin2 (Frac.ofInt 15) (Frac.divInt cov 10 (by norm_num)))
      else score
    else score
  let score :=
    if 0 < p.try_except + p.if_else then Frac.add score (Frac.ofInt 10) else score
  let score :=
    if 0 < p.total_functions ∨ 0 < p.total_classes then
      Frac.add score (Frac.ofInt 10)
    else score
  let score :=
    if h : 0 < p.function_lengths.length then
      let avg : Frac :=
        ⟨(p.function_lengths.sum : Int), (p.function_lengths.length : Int), by
          exact_mod_cast h⟩
      if Frac.lt (Frac.ofInt 50) avg then Frac.subInt score 10
      else if Frac.lt (Frac.ofInt 100) avg then Frac.subInt score 20
      else score
    else score
  if 0 < p.total_lines then pyMax2 score (Frac.ofInt 30) else score

/-- The returned value of `calculate_code_quality`: the raw score truncated
to int and clamped to `[0, 100]` by `min(100, max(0, int(score)))`. -/
def calculate_code_quality (p : AllPatterns) : Int :=
  min 100 (max 0 (pyIntF (qualityScoreF p)))

/-- The final profile returned by `generate_report`.  The three percentage
fields hold `round(x, 1) * 10` as an exact integer (tenths of a percent),
since the rounded floats are exact multiples of one tenth. -/
structure StyleReport where
  naming_style : String
  naming_confidence : Int
  documentation_percentage : Int
  type_hints_percentage : Int
  error_handling_style : String
  code_quality_score : Int
  total_functions : Nat
  total_classes : Nat
  total_lines : Nat
  files_analyzed : Nat
deriving DecidableEq, Repr

/-- Function `generate_report` of `code_analyzer.py`. -/
def generate_report (p : AllPatterns) : StyleReport :=
  let all_names := p.function_names ++ p.variable_names ++ p.class_names
  let nm := detect_naming_style all_names
  let doc : Frac :=
    if h : 0 < p.total_functions then pct p.has_docstrings p.total_functions h
    else if 0 < p.has_module_docstring then Frac.ofInt 20
    else Frac.ofInt 0
  let th : Frac :=
    if h : 0 < p.total_functions then
      pct p.functions_with_type_hints p.total_functions h
    else Frac.ofInt 0
  let conf : Frac :=
    if p.total_functions = 0 ∧ 0 < all_names.length then pyMax2 nm.2 (Frac.ofInt 30)
    else nm.2
  { naming_style := nm.1
    naming_confidence := round1F conf
    documentation_percentage := round1F doc
    type_hints_percentage := round1F th
    error_handling_style := detect_error_handling_style p
    code_quality_score := calculate_code_quality p
    total_functions := p.total_functions
    total_classes := p.total_classes
    total_lines := p.total_lines
    files_analyzed := p.files_analyzed }

/-- Function `analyze_code_files` of `code_analyzer.py`: aggregate all files, then
generate the report.  Every per-file exception is handled inside the fold,
so this is a total function of the batch. -/
def analyze_code_files (files : List PyFile) : StyleReport :=
  generate_report (allPatternsOf files)

/-- The commutative summary of an accumulator state: everything
`generate_report` depends on, with the name lists replaced by the counts the
report derives from them and the length list by its sum and size.  Used to
prove that the aggregation is order-independent. -/
structure Summary where
  nAll : Nat := 0
  nKept : Nat := 0
  keptSnake : Nat := 0
  keptCamel : Nat := 0
  keptPascal : Nat := 0
  allSnake : Nat := 0
  allCamel : Nat := 0
  allPascal : Nat := 0
  has_docstrings : Nat := 0
  total_functions : Nat := 0
  has_type_hints : Nat := 0
  functions_with_type_hints : Nat := 0
  try_except : Nat := 0
  if_else : Nat := 0
  lenSum : Nat := 0
  lenCount : Nat := 0
  total_lines : Nat := 0
  total_classes : Nat := 0
  has_module_docstring : Nat := 0
  comment_lines : Nat := 0
  files_analyzed : Nat := 0
deriving DecidableEq, Repr

/-- Pointwise sum of summaries. -/
def Summary.add (a b : Summary) : Summary where
  nAll := a.nAll + b.nAll
  nKept := a.nKept + b.nKept
  keptSnake := a.keptSnake + b.keptSnake
  keptCamel := a.keptCamel + b.keptCamel
  keptPascal := a.keptPascal + b.keptPascal
  allSnake := a.allSnake + b.allSnake
  allCamel := a.allCamel + b.allCamel
  allPascal := a.allPascal + b.allPascal
  has_docstrings := a.has_docstrings + b.has_docstrings
  total_functions := a.total_functions + b.total_functions
  has_type_hints := a.has_type_hints + b.has_type_hints
  functions_with_type_hints := a.functions_with_type_hints + b.functions_with_type_hints
  try_except := a.try_except + b.try_except
  if_else := a.if_else + b.if_else
  lenSum := a.lenSum + b.lenSum
  lenCount := a.lenCount + b.lenCount
  total_lines := a.total_lines + b.total_lines
  total_classes := a.total_classes + b.total_classes
  has_module_docstring := a.has_module_docstring + b.has_module_docstring
  comment_lines := a.comment_lines + b.comment_lines
  files_analyzed := a.files_analyzed + b.files_analyzed

/-- The name-derived counters of a summary, from a list of identifiers. -/
def nameSummary (ns : List String) : Summary where
  nAll := ns.length
  nKept := ns.countP keepName
  keptSnake := ns.countP fun n => caIsSnake n && keepName n
  keptCamel := ns.countP fun n => caIsCamel n && keepName n
  keptPascal := ns.countP fun n => caIsPascal n && keepName n
  allSnake := ns.countP caIsSnake
  allCamel := ns.countP caIsCamel
  allPascal := ns.countP caIsPascal

/-- The summary of an accumulator state. -/
def summaryOf (p : AllPatterns) : Summary :=
  { nameSummary (p.function_names ++ p.variable_names ++ p.class_names) with
    has_docstrings := p.has_docstrings
    total_functions := p.total_functions
    has_type_hints := p.has_type_hints
    functions_with_type_hints := p.functions_with_type_hints
    try_except := p.try_except
    if_else := p.if_else
    lenSum := p.function_lengths.sum
    lenCount := p.function_lengths.length
    total_lines := p.total_lines
    total_classes := p.total_classes
    has_module_docstring := p.has_module_docstring
    comment_lines := p.comment_lines
    files_analyzed := p.files_analyzed }

/-- The summary contribution of one file, mirroring the three live branches
of the per-file loop: a blank file contributes nothing; a parsed file its
tree-walk data plus line counts; a `SyntaxError` file the regex-extracted
assignment identifiers plus its line count; any other failure only its line
count.  Each non-blank file contributes exactly 1 to `files_analyzed`. -/
def contrib (f : PyFile) : Summary :=
  if pyStripIsEmpty f.content then {}
  else
    match f.parse with
    | ParseOutcome.ok info =>
      { nameSummary (info.function_names ++ info.variable_names ++ info.class_names) with
        has_docstrings := info.has_docstrings
        total_functions := info.total_functions
        has_type_hints := info.has_type_hints
        functions_with_type_hints := info.functions_with_type_hints
        try_except := info.try_except
        if_else := info.if_else
        lenSum := info.function_lengths.sum
        lenCount := info.function_lengths.length
        total_lines := numLines f.content
        total_classes := info.total_classes
        has_module_docstring := info.has_module_docstring
        comment_lines := commentLines f.content
        files_analyzed := 1 }
    | ParseOutcome.syntaxError =>
      if f.content = "" then {}
      else
        { nameSummary (findAssignIdents f.content) with
          total_lines := numLines f.content
          files_analyzed := 1 }
    | ParseOutcome.otherError =>
      if f.content = "" then {}
      else { total_lines := numLines f.content, files_analyzed := 1 }

/-- Sum of all per-file contributions of a batch. -/
def sumC (files : List PyFile) : Summary :=
  (files.map contrib).foldr Summary.add {}

/-- The quality score recomputed from a summary (same arithmetic as
`qualityScoreF`, with the length list replaced by its sum and size). -/
def qualityScoreS (s : Summary) : Frac :=
  let score := Frac.ofInt 40
  let score :=
    if h : 0 < s.total_functions then
      Frac.add score
        (Frac.mulInt
          (Frac.divInt (pct s.has_docstrings s.total_functions h) 100 (by norm_num)) 20)
    else if 0 < s.has_module_docstring then Frac.add score (Frac.ofInt 10)
    else score
  let score :=
    if h : 0 < s.total_functions then
      Frac.add score
        (Frac.mulInt
          (Frac.divInt (pct s.functions_with_type_hints s.total_functions h) 100
            (by norm_num)) 15)
    else score
  let score :=
    if h : 0 < s.total_lines then
      let cov := pct s.comment_lines s.total_lines h
      if Frac.lt (Frac.ofInt 10) cov then
        Frac.add score (pyMin2 (Frac.ofInt 15) (Frac.divInt cov 10 (by norm_num)))
      else score
    else score
  let score :=
    if 0 < s.try_except + s.if_else then Frac.add score (Frac.ofInt 10) else score
  let score :=
    if 0 < s.total_functions ∨ 0 < s.total_classes then
      Frac.add score (Frac.ofInt 10)
    else score
  let score :=
    if h : 0 < s.lenCount then
      let avg : Frac := ⟨(s.lenSum : Int), (s.lenCount : Int), by exact_mod_cast h⟩
      if Frac.lt (Frac.ofInt 50) avg then Frac.subInt score 10
      else if Frac.lt (Frac.ofInt 100) avg then Frac.subInt score 20
      else score
    else score
  if 0 < s.total_lines then pyMax2 score (Frac.ofInt 30) else score

/-- The full report recomputed from a summary. -/
def reportFromSummary (s : Summary) : StyleReport :=
  let nm :=
    if s.nAll = 0 then ("snake_case", Frac.ofInt 0)
    else if s.nKept = 0 then detectFromCounts s.nAll s.allSnake s.allCamel s.allPascal
    else detectFromCounts s.nKept s.keptSnake s.keptCamel s.keptPascal
  let doc : Frac :=
    if h : 0 < s.total_functions then pct s.has_docstrings s.total_functions h
    else if 0 < s.has_module_docstring then Frac.ofInt 20
    else Frac.ofInt 0
  let th : Frac :=
    if h : 0 < s.total_functions then
      pct s.functions_with_type_hints s.total_functions h
    else Frac.ofInt 0
  let conf : Frac :=
    if s.total_functions = 0 ∧ 0 < s.nAll then pyMax2 nm.2 (Frac.ofInt 30)
    else nm.2
  { naming_style := nm.1
    naming_confidence := round1F conf
    documentation_percentage := round1F doc
    type_hints_percentage := round1F th
    error_handling_style := errorStyleCore s.try_except s.if_else
    code_quality_score := min 100 (max 0 (pyIntF (qualityScoreS s)))
    total_functions := s.total_functions
    total_classes := s.total_classes
    total_lines := s.total_lines
    files_analyzed := s.files_analyzed }

/-- The per-function naming classification of `style_dna.py`'s
`analyze_function`: upper-case-with-underscores first, then any underscore
as snake_case, then a leading capital as PascalCase, else camelCase. -/
def dnaClassify (name : String) : String :=
  if pyIsUpper name && pyInStr '_' name then "UPPER_CASE"
  else if pyInStr '_' name then "snake_case"
  else if (strHead name).isUpper then "PascalCase"
  else "camelCase"

/-- Substring containment (Python's `in` on strings / a bare `re.search`
for a literal), scanning the text left to right. -/
def containsSub (pat : List Char) : List Char → Bool
  | [] => pat.isEmpty
  | c :: rest => pat.isPrefixOf (c :: rest) || containsSub pat rest

/-- Strip a literal prefix, returning the remaining characters. -/
def dropLit : List Char → List Char → Option (List Char)
  | [], s => some s
  | _ :: _, [] => none
  | p :: ps, c :: cs => if p = c then dropLit ps cs else none

/-- Whether the character before the current position is a word character
(`none` stands for the start of the text). -/
def prevIsWord : Option Char → Bool
  | none => false
  | some p => isWordChar p

/-- A regex `\b` holds at a position iff exactly one of the neighbouring
characters is a word character. -/
def boundaryAt (prev : Option Char) (c : Char) : Bool :=
  isWordChar c != prevIsWord prev

/-- Search as `re.search` does for a pattern `\b(alt|...)`: at every position where a word
boundary holds, try each alternative's matcher on the remaining text. -/
def wbSearch (alts : List (List Char → Bool)) : Option Char → List Char → Bool
  | _, [] => false
  | prev, c :: rest =>
    (boundaryAt prev c && alts.any fun m => m (c :: rest)) ||
      wbSearch alts (some c) rest

/-- Search as `re.search` does without an anchoring `\b`: try each alternative's matcher at
every position. -/
def plainSearch (alts : List (List Char → Bool)) : List Char → Bool
  | [] => false
  | c :: rest => (alts.any fun m => m (c :: rest)) || plainSearch alts rest

/-- Matcher for a literal. -/
def litM (w : String) (s : List Char) : Bool :=
  w.toList.isPrefixOf s

/-- Matcher for `lit\s` (a literal followed by one whitespace character). -/
def litThenWs1 (w : String) (s : List Char) : Bool :=
  match dropLit w.toList s with
  | some (c :: _) => pySpace c
  | _ => false

/-- Matcher for `lit1\s+lit2`: the second literal must follow the maximal
run (at least one) of whitespace after the first, which is exactly what the
greedy `\s+` matches since the literals do not start with whitespace. -/
def litWsPlusLit (w1 w2 : String) (s : List Char) : Bool :=
  match dropLit w1.toList s with
  | some (c :: rest) => pySpace c && litM w2 (rest.dropWhile pySpace)
  | _ => false

/-- The Python-indicator regex `\b(import|from|def|class|if __name__)`. -/
def sigPython (s : List Char) : Bool :=
  wbSearch [litM "import", litM "from", litM "def", litM "class", litM "if __name__"]
    none s

/-- The Python shebang test of `detect_language_from_content`. -/
def hasShebang (s : List Char) : Bool :=
  containsSub "#!/usr/bin/env python".toList s || containsSub "#!/usr/bin/python".toList s

/-- The JavaScript-indicator regex
`\b(function|const|let|var|=>|require\(|import\s)`. -/
def sigJS (s : List Char) : Bool :=
  wbSearch
    [litM "function", litM "const", litM "let", litM "var", litM "=>",
      litM "require(", litThenWs1 "import"] none s

/-- The Java-indicator regex `\b(public\s+class|import\s+java\.|package\s+)`. -/
def sigJava (s : List Char) : Bool :=
  wbSearch
    [litWsPlusLit "public" "class", litWsPlusLit "import" "java.",
      litThenWs1 "package"] none s

/-- The C/C++-indicator regex `#include\s*[<"]`. -/
def sigInclude (s : List Char) : Bool :=
  plainSearch
    [fun t =>
      match dropLit "#include".toList t with
      | some r =>
        match r.dropWhile pySpace with
        | c :: _ => c == '<' || c == '"'
        | [] => false
      | none => false] s

/-- The HTML-indicator regex `<!DOCTYPE\s+html|<html|<head>` (run, like the
other indicators, on the lower-cased text, so the upper-case first
alternative can never fire — embedded faithfully). -/
def sigHTML (s : List Char) : Bool :=
  plainSearch [litWsPlusLit "<!DOCTYPE" "html", litM "<html", litM "<head>"] s

/-- Word-or-hyphen character class `[\w-]` of the CSS selector pattern. -/
def wordHyphen (c : Char) : Bool :=
  isWordChar c || c == '-'

/-- The anchored part `^\s*[.#][\w-]+\s*\{` of the CSS indicator (the `^`
anchors at the start of the whole text; `re.MULTILINE` is not set). -/
def cssSelectorStart (s : List Char) : Bool :=
  match s.dropWhile pySpace with
  | c :: rest =>
    (c == '.' || c == '#') &&
      (let w := rest.takeWhile wordHyphen
       let rest2 := rest.dropWhile wordHyphen
       !w.isEmpty &&
         match rest2.dropWhile pySpace with
         | b :: _ => b == Char.ofNat 123
         | [] => false)
  | [] => false

/-- The CSS indicator `@(media|import|keyframes)|^\s*[.#][\w-]+\s*\{`.
Unlike every other indicator it is applied to the original, full content:
neither truncated to 500 characters nor lower-cased. -/
def sigCSS (content : String) : Bool :=
  plainSearch [litM "@media", litM "@import", litM "@keyframes"] content.toList ||
    cssSelectorStart content.toList

/-- The fixed extension table `LANGUAGE_EXTENSIONS` of
`language_detector.py`, in its source (insertion) order. -/
def LANGUAGE_EXTENSIONS : List (String × List String) :=
  [("Python", [".py", ".pyw", ".pyx"]),
   ("JavaScript", [".js", ".jsx", ".mjs"]),
   ("TypeScript", [".ts", ".tsx"]),
   ("Java", [".java"]),
   ("C", [".c", ".h"]),
   ("C++", [".cpp", ".cc", ".cxx", ".hpp", ".hxx"]),
   ("C#", [".cs"]),
   ("Go", [".go"]),
   ("Rust", [".rs"]),
   ("Ruby", [".rb"]),
   ("PHP", [".php"]),
   ("Swift", [".swift"]),
   ("Kotlin", [".kt", ".kts"]),
   ("Scala", [".scala"]),
   ("R", [".r"]),
   ("MATLAB", [".m"]),
   ("Shell", [".sh", ".bash", ".zsh"]),
   ("HTML", [".html", ".htm"]),
   ("CSS", [".css", ".scss", ".sass", ".less"]),
   ("Vue", [".vue"]),
   ("Svelte", [".svelte"]),
   ("Dart", [".dart"]),
   ("Lua", [".lua"]),
   ("Perl", [".pl", ".pm"]),
   ("SQL", [".sql"])]

/-- Function `get_language_from_extension`: lower-case the extension and return the
first language of the table whose extension list contains it. -/
def get_language_from_extension (extension : String) : String :=
  match LANGUAGE_EXTENSIONS.find? fun p =>
      p.2.contains (String.mk (pyLower extension.toList)) with
  | some p => p.1
  | none => "Unknown"

/-- Function `detect_language_from_content` of `language_detector.py`: extension
lookup first (`'.' + filename.split('.')[-1].lower()`), then the content
heuristics on the lower-cased first 500 characters — except the CSS
indicator, which scans the original full content. -/
def detect_language_from_content (filename content : String) : String :=
  let extLang :=
    if pyInStr '.' filename then
      get_language_from_extension
        (String.mk ('.' :: pyLower ((splitOnChar '.' filename.toList).getLastD [])))
    else "Unknown"
  if extLang ≠ "Unknown" then extLang
  else
    let cl := pyLower (content.toList.take 500)
    if sigPython cl && hasShebang cl then "Python"
    else if sigJS cl then "JavaScript"
    else if sigJava cl then "Java"
    else if sigInclude cl then
      if containsSub "namespace".toList cl || containsSub "std::".toList cl then "C++"
      else "C"
    else if sigHTML cl then "HTML"
    else if sigCSS content then "CSS"
    else "Unknown"

/-- One input file of `analyze_multi_language_files`: the optional
`language` key mirrors Python's `file_data.get('language')`. -/
structure SrcFile where
  filename : String := ""
  content : String := ""
  language : Option String := none
deriving DecidableEq, Repr

/-- The per-language counters of `language_stats`. -/
structure LangStats where
  file_count : Nat
  total_lines : Nat
  total_size : Nat
deriving DecidableEq, Repr

/-- The language under which the loop files one file: the provided
`language` value unless it is missing, empty (falsy) or `'Unknown'`, in
which case `detect_language_from_content` runs. -/
def detectedLang (f : SrcFile) : String :=
  match f.language with
  | none => detect_language_from_content f.filename f.content
  | some l =>
    if l = "" || l = "Unknown" then detect_language_from_content f.filename f.content
    else l

/-- Update the value stored under a key of an association list (the keys are
unique by construction, mirroring a Python dict in insertion order). -/
def updateAssoc {β : Type} (k : String) (g : β → β) : List (String × β) → List (String × β)
  | [] => []
  | (k', v) :: rest =>
    if k' = k then (k', g v) :: rest else (k', v) :: updateAssoc k g rest

/-- The two insertion-ordered dictionaries the grouping loop maintains. -/
structure MLState where
  groups : List (String × List SrcFile) := []
  stats : List (String × LangStats) := []
deriving DecidableEq, Repr

/-- One iteration of the grouping loop of `analyze_multi_language_files`:
insert an empty bucket on the language's first appearance (both dicts always
hold the same keys, so membership is tested on `stats`), then append the
file and bump the counters. -/
def mlStep (st : MLState) (f : SrcFile) : MLState :=
  let lang := detectedLang f
  let st :=
    if (st.stats.lookup lang).isNone then
      { groups := st.groups ++ [(lang, [])],
        stats := st.stats ++ [(lang, ⟨0, 0, 0⟩)] }
    else st
  { groups := updateAssoc lang (fun g => g ++ [f]) st.groups
    stats :=
      updateAssoc lang
        (fun s =>
          ⟨s.file_count + 1, s.total_lines + numLines f.content,
            s.total_size + f.content.toList.length⟩) st.stats }

/-- One step of Python's builtin `max`: replace the running maximum only
when the candidate's key is strictly greater. -/
def maxStep (acc y : String × LangStats) : String × LangStats :=
  if acc.2.file_count < y.2.file_count then y else acc

/-- Python's `max(language_stats.items(), key=lambda x: x[1]['file_count'])`:
scan in insertion order, replacing the running maximum only on a strictly
greater count, so ties keep the earliest-inserted language. -/
def pyMaxByCount : List (String × LangStats) → Option (String × LangStats)
  | [] => none
  | x :: xs => some (xs.foldl maxStep x)

/-- The dictionary returned by `analyze_multi_language_files`. -/
structure MultiLangResult where
  files_by_language : List (String × List SrcFile)
  language_stats : List (String × LangStats)
  total_languages : Nat
  primary_language : String
deriving DecidableEq, Repr

/-- Function `analyze_multi_language_files` of `language_detector.py`. -/
def analyze_multi_language_files (files : List SrcFile) : MultiLangResult :=
  let st := files.foldl mlStep {}
  { files_by_language := st.groups
    language_stats := st.stats
    total_languages := st.groups.length
    primary_language :=
      match pyMaxByCount st.stats with
      | some p => p.1
      | none => "Unknown" }

/-- One step of collecting keys in order of first appearance. -/
def foStep (acc : List String) (x : String) : List String :=
  if acc.contains x then acc else acc ++ [x]

/-- The distinct elements of a list in order of first appearance (the key
order of a Python dict filled by the grouping loop). -/
def firstOccurrences (l : List String) : List String :=
  l.foldl foStep []

/-- The statistics bucket a batch produces for one language. -/
def statsFor (files : List SrcFile) (lang : String) : LangStats where
  file_count := files.countP fun f => detectedLang f == lang
  total_lines :=
    ((files.filter fun f => detectedLang f == lang).map fun f => numLines f.content).sum
  total_size :=
    ((files.filter fun f => detectedLang f == lang).map fun f => f.content.toList.length).sum

/-- Closed form of the `language_stats` dictionary: one bucket per detected
language in order of first appearance. -/
def mkStats (files : List SrcFile) : List (String × LangStats) :=
  (firstOccurrences (files.map detectedLang)).map fun l => (l, statsFor files l)

/-- Modelled from the spec: the tie-break the spec claims for
`primary_language` — among the buckets with the greatest file count, the
language registered earliest in the fixed extension table (languages not in
the table rank last).  Used to compare the claimed tie-break with the
code's. -/
def tableIndex (lang : String) : Nat :=
  (LANGUAGE_EXTENSIONS.map Prod.fst).indexOf lang

/-- Modelled from the spec: `primary_language` as the spec's tie-break rule
would choose it from the statistics buckets. -/
def specPrimaryByTableOrder (stats : List (String × LangStats)) : String :=
  let m := (stats.map fun p => p.2.file_count).foldr max 0
  let cands := stats.filter fun p => p.2.file_count = m
  match cands.foldl
      (fun best p =>
        match best with
        | none => some p
        | some b => if tableIndex p.1 < tableIndex b.1 then some p else some b)
      none with
  | some p => p.1
  | none => "Unknown"

/-! Concrete inputs used by the witnesses and counterexamples below. -/

/-- A syntactically broken file: `ast.parse` raises `SyntaxError`; the
regex fallback can still see the assignment `total = 1`. -/
def badFile : PyFile :=
  { filename := "broken.py", content := "total = 1\ndef f(:\n",
    parse := ParseOutcome.syntaxError }

/-- A small well-formed file accompanying `badFile` in its batch. -/
def goodFile : PyFile :=
  { filename := "ok.py", content := "y = 2\n",
    parse := ParseOutcome.ok { variable_names := ["y"] } }

/-- A well-formed file declaring one variable (parses to one `ast.Assign`). -/
def wfile1 : PyFile :=
  { filename := "a.py", content := "x = 1\n",
    parse := ParseOutcome.ok { variable_names := ["x"] } }

/-- A well-formed file declaring one two-line function. -/
def wfile2 : PyFile :=
  { filename := "b.py", content := "def f():\n    return 1\n",
    parse :=
      ParseOutcome.ok
        { function_names := ["f"], total_functions := 1, function_lengths := [1] } }

/-- A whitespace-only file (skipped by the analyzer's blank check). -/
def blankFile : PyFile :=
  { filename := "empty.py", content := "   \n\t\n", parse := ParseOutcome.syntaxError }

/-- A one-assignment file used for the quality-floor witness. -/
def c4file : PyFile :=
  { filename := "tiny.py", content := "x = 1",
    parse := ParseOutcome.ok { variable_names := ["x"] } }

/-- Accumulated patterns of a batch whose single function spans 150 lines:
the average function length exceeds 100. -/
def c3Patterns : AllPatterns :=
  { function_names := ["process_data"], total_functions := 1,
    function_lengths := [150], total_lines := 150 }

/-- Patterns with identifier names but no functions (for the confidence
floor of `generate_report`). -/
def p9 : AllPatterns :=
  { variable_names := ["alpha", "Beta", "GAMMA_X"], total_lines := 3 }

/-- A Python file of a tied two-language batch. -/
def permA : SrcFile := { filename := "alpha.py", content := "x = 1\n" }

/-- A JavaScript file of a tied two-language batch. -/
def permB : SrcFile := { filename := "beta.js", content := "var x = 1;\n" }

/-- A JavaScript file appearing first in a tied batch. -/
def tieJsFile : SrcFile := { filename := "main.js", content := "var a = 1;\n" }

/-- A Python file appearing second in a tied batch. -/
def tiePyFile : SrcFile := { filename := "util.py", content := "import os\n" }

/-- A single Python file for the primary-language witness. -/
def c7wFile : SrcFile := { filename := "solo.py", content := "x = 1\n" }

/-- Content whose first 500 characters match no language signature but
whose tail contains `@media`, which only the full-content CSS scan sees. -/
def zContent : String :=
  String.mk (List.replicate 1000 'z' ++ "@media".toList)

/-! Supporting lemmas. -/

theorem isLower_isUpper_false (c : Char) (h : c.isLower = true) : c.isUpper = false := by
  simp only [Char.isLower, Bool.and_eq_true, decide_eq_true_eq] at h
  simp only [Char.isUpper]
  rw [Bool.and_eq_false_iff]
  right
  simp only [decide_eq_false_iff_not]
  intro hle
  exact absurd (UInt32.le_trans h.1 hle) (by decide)

theorem isUpper_isLower_false (c : Char) (h : c.isUpper = true) : c.isLower = false := by
  simp only [Char.isUpper, Bool.and_eq_true, decide_eq_true_eq] at h
  simp only [Char.isLower]
  rw [Bool.and_eq_false_iff]
  left
  simp only [decide_eq_false_iff_not]
  intro hle
  exact absurd (UInt32.le_trans hle h.2) (by decide)

theorem pyIsLower_pyIsUpper_false (n : String) (h : pyIsLower n = true) :
    pyIsUpper n = false := by
  rw [Bool.eq_false_iff]
  intro habs
  simp only [pyIsLower, Bool.and_eq_true, List.any_eq_true, List.all_eq_true] at h
  simp only [pyIsUpper, Bool.and_eq_true, List.any_eq_true, List.all_eq_true] at habs
  obtain ⟨⟨c, hc, hcased⟩, hallNU⟩ := h
  obtain ⟨-, hallNL⟩ := habs
  have h1 := hallNU c hc
  have h2 := hallNL c hc
  simp only [Bool.not_eq_true'] at h1 h2
  simp [pyCased, h1, h2] at hcased

theorem pyIsUpper_pyIsLower_false (n : String) (h : pyIsUpper n = true) :
    pyIsLower n = false := by
  rw [Bool.eq_false_iff]
  intro habs
  simp only [pyIsUpper, Bool.and_eq_true, List.any_eq_true, List.all_eq_true] at h
  simp only [pyIsLower, Bool.and_eq_true, List.any_eq_true, List.all_eq_true] at habs
  obtain ⟨⟨c, hc, hcased⟩, hallNL⟩ := h
  obtain ⟨-, hallNU⟩ := habs
  have h1 := hallNL c hc
  have h2 := hallNU c hc
  simp only [Bool.not_eq_true'] at h1 h2
  simp [pyCased, h1, h2] at hcased

theorem pyIntF_ofInt (n : Int) : pyIntF (Frac.ofInt n) = n := by
  unfold pyIntF Frac.ofInt
  by_cases h : 0 ≤ n
  · simp [h, Int.ediv_one]
  · simp [h, Int.ediv_one]

theorem le_pyIntF_max30 (x : Frac) : 30 ≤ pyIntF (pyMax2 x (Frac.ofInt 30)) := by
  unfold pyMax2
  by_cases h : Frac.lt x (Frac.ofInt 30)
  · rw [if_pos h, pyIntF_ofInt]
  · rw [if_neg h]
    unfold Frac.lt Frac.ofInt at h
    simp only [not_lt, mul_one] at h
    have hpos := x.den_pos
    have hnn : 0 ≤ x.num := le_trans (by positivity) h
    unfold pyIntF
    rw [if_pos hnn]
    exact (Int.le_ediv_iff_mul_le hpos).mpr (by linarith)

theorem le300_round1F_max30 (x : Frac) : 300 ≤ round1F (pyMax2 x (Frac.ofInt 30)) := by
  unfold pyMax2
  by_cases h : Frac.lt x (Frac.ofInt 30)
  · rw [if_pos h]
    decide
  · rw [if_neg h]
    unfold Frac.lt Frac.ofInt at h
    simp only [not_lt, mul_one] at h
    have hpos := x.den_pos
    have hf : 300 ≤ x.num * 10 / x.den :=
      (Int.le_ediv_iff_mul_le hpos).mpr (by linarith)
    unfold round1F
    dsimp only
    split_ifs <;> linarith

theorem Summary.add_zero_right (a : Summary) : a.add {} = a := by
  cases a; simp [Summary.add]

theorem Summary.zero_add_left (a : Summary) : Summary.add {} a = a := by
  cases a; simp [Summary.add]

theorem Summary.add_comm (a b : Summary) : a.add b = b.add a := by
  cases a; cases b
  simp only [Summary.add, Summary.mk.injEq]
  omega

theorem Summary.add_assoc (a b c : Summary) : (a.add b).add c = a.add (b.add c) := by
  cases a; cases b; cases c
  simp only [Summary.add, Summary.mk.injEq]
  omega

theorem summaryOf_processFile (acc : AllPatterns) (f : PyFile) :
    summaryOf (processFile acc f) = (summaryOf acc).add (contrib f) := by
  unfold processFile contrib
  by_cases hb : pyStripIsEmpty f.content
  · rw [if_pos hb, if_pos hb, Summary.add_zero_right]
  · rw [if_neg hb, if_neg hb]
    have hne : f.content ≠ "" := by
      intro h
      rw [h] at hb
      simp [pyStripIsEmpty] at hb
    cases f.parse with
    | ok info =>
      simp only [summaryOf, nameSummary, Summary.add, Summary.mk.injEq,
        List.countP_append, List.length_append, List.sum_append]
      refine ⟨?_, ?_, ?_, ?_, ?_, ?_, ?_, ?_, ?_, ?_, ?_, ?_, ?_, ?_, ?_, ?_, ?_,
        ?_, ?_, ?_, ?_⟩
      all_goals first | trivial | omega
    | syntaxError =>
      simp only [if_neg hne]
      simp only [summaryOf, nameSummary, Summary.add, Summary.mk.injEq,
        List.countP_append, List.length_append, List.sum_append]
      refine ⟨?_, ?_, ?_, ?_, ?_, ?_, ?_, ?_, ?_, ?_, ?_, ?_, ?_, ?_, ?_, ?_, ?_,
        ?_, ?_, ?_, ?_⟩
      all_goals first | trivial | omega
    | otherError =>
      simp only [if_neg hne]
      simp only [summaryOf, nameSummary, Summary.add, Summary.mk.injEq,
        List.countP_append, List.length_append, List.sum_append]
      refine ⟨?_, ?_, ?_, ?_, ?_, ?_, ?_, ?_, ?_, ?_, ?_, ?_, ?_, ?_, ?_, ?_, ?_,
        ?_, ?_, ?_, ?_⟩
      all_goals first | trivial | omega

theorem sumC_cons (f : PyFile) (t : List PyFile) :
    sumC (f :: t) = (contrib f).add (sumC t) := rfl

theorem sumC_nil : sumC [] = {} := rfl

theorem sumC_append (l1 l2 : List PyFile) :
    sumC (l1 ++ l2) = (sumC l1).add (sumC l2) := by
  induction l1 with
  | nil => rw [List.nil_append, sumC_nil, Summary.zero_add_left]
  | cons f t ih => rw [List.cons_append, sumC_cons, sumC_cons, ih, Summary.add_assoc]

theorem sumC_perm {l1 l2 : List PyFile} (h : l1.Perm l2) : sumC l1 = sumC l2 := by
  induction h with
  | nil => rfl
  | cons x _ ih => rw [sumC_cons, sumC_cons, ih]
  | swap x y t =>
    rw [sumC_cons, sumC_cons, sumC_cons, sumC_cons, ← Summary.add_assoc,
      ← Summary.add_assoc, Summary.add_comm (contrib y) (contrib x)]
  | trans _ _ ih1 ih2 => rw [ih1, ih2]

theorem summaryOf_foldl (l : List PyFile) (acc : AllPatterns) :
    summaryOf (l.foldl processFile acc) = (summaryOf acc).add (sumC l) := by
  induction l generalizing acc with
  | nil =>
    rw [List.foldl_nil, sumC, List.map_nil, List.foldr_nil, Summary.add_zero_right]
  | cons f t ih =>
    rw [List.foldl_cons, ih, summaryOf_processFile, sumC_cons, Summary.add_assoc]

theorem summaryOf_initPatterns : summaryOf initPatterns = {} := rfl

theorem summary_allPatterns (l : List PyFile) :
    summaryOf (allPatternsOf l) = sumC l := by
  rw [allPatternsOf, summaryOf_foldl, summaryOf_initPatterns, Summary.zero_add_left]

theorem detect_eq_counts (ns : List String) :
    detect_naming_style ns =
      (if ns.length = 0 then ("snake_case", Frac.ofInt 0)
       else if ns.countP keepName = 0 then
         detectFromCounts ns.length (ns.countP caIsSnake) (ns.countP caIsCamel)
           (ns.countP caIsPascal)
       else
         detectFromCounts (ns.countP keepName)
           (ns.countP fun n => caIsSnake n && keepName n)
           (ns.countP fun n => caIsCamel n && keepName n)
           (ns.countP fun n => caIsPascal n && keepName n)) := by
  by_cases h0 : ns = []
  · simp [detect_naming_style, h0]
  · by_cases hf : ns.filter keepName = []
    · have hc : ns.countP keepName = 0 := by
        rw [List.countP_eq_length_filter, hf]
        rfl
      simp [detect_naming_style, h0, hf, hc, List.length_eq_zero]
    · have hc : ns.countP keepName ≠ 0 := by
        rw [List.countP_eq_length_filter]
        simpa [List.length_eq_zero] using hf
      simp only [detect_naming_style, if_neg h0, hf, if_false, hc,
        List.length_eq_zero, h0, ite_false]
      rw [List.countP_eq_length_filter keepName]
      simp [List.countP_filter]

theorem qualityScore_eq (p : AllPatterns) :
    qualityScoreF p = qualityScoreS (summaryOf p) := by
  rfl

theorem generate_report_eq (p : AllPatterns) :
    generate_report p = reportFromSummary (summaryOf p) := by
  simp only [generate_report, reportFromSummary, detect_eq_counts]
  rfl

theorem report_files_eq_sumC (l : List PyFile) :
    (analyze_code_files l).files_analyzed = (sumC l).files_analyzed := by
  rw [analyze_code_files, generate_report_eq, summary_allPatterns]
  rfl

theorem contrib_total_lines_le (files : List PyFile) (f : PyFile) (hf : f ∈ files) :
    (contrib f).total_lines ≤ (sumC files).total_lines := by
  obtain ⟨s, t, rfl⟩ := List.mem_iff_append.mp hf
  rw [sumC_append, sumC_cons]
  show _ ≤ (sumC s).total_lines + ((contrib f).total_lines + (sumC t).total_lines)
  omega

theorem qualityScoreF_pos_lines (p : AllPatterns) (h : 0 < p.total_lines) :
    ∃ x, qualityScoreF p = pyMax2 x (Frac.ofInt 30) := by
  unfold qualityScoreF
  simp only []
  rw [if_pos h]
  exact ⟨_, rfl⟩

/-- C1: a file whose content raises `SyntaxError` is recovered locally: the
batch report still counts it once in `files_analyzed`, the rest of the
batch contributes exactly what it would contribute without the broken file
(no exception escapes the loop — `analyze_code_files` is total by
construction, with the `SyntaxError` handler embedded in `processFile`),
and the broken file itself is degraded to the regex extraction of
assignment identifiers plus its total line count. -/
theorem C1_syntax_error_degraded (pre suf : List PyFile) (bad : PyFile)
    (hp : bad.parse = ParseOutcome.syntaxError)
    (hc : pyStripIsEmpty bad.content = false) :
    (analyze_code_files (pre ++ bad :: suf)).files_analyzed
        = (analyze_code_files (pre ++ suf)).files_analyzed + 1 ∧
    sumC (pre ++ bad :: suf) = (sumC (pre ++ suf)).add (contrib bad) ∧
    (contrib bad).files_analyzed = 1 ∧
    (contrib bad).total_lines = numLines bad.content ∧
    (contrib bad).nAll = (findAssignIdents bad.content).length := by
  have hne : bad.content ≠ "" := by
    intro h
    rw [h] at hc
    simp [pyStripIsEmpty] at hc
  have hcontrib : contrib bad
      = { nameSummary (findAssignIdents bad.content) with
          total_lines := numLines bad.content
          files_analyzed := 1 } := by
    rw [contrib, hp]
    rw [if_neg (by simp [hc]), if_neg hne]
  have hsum : sumC (pre ++ bad :: suf) = (sumC (pre ++ suf)).add (contrib bad) := by
    rw [sumC_append, sumC_cons, sumC_append, Summary.add_comm (contrib bad) (sumC suf),
      ← Summary.add_assoc]
  refine ⟨?_, hsum, ?_, ?_, ?_⟩
  · rw [report_files_eq_sumC, report_files_eq_sumC, hsum]
    show (sumC (pre ++ suf)).files_analyzed + (contrib bad).files_analyzed = _
    rw [hcontrib]
  · rw [hcontrib]
  · rw [hcontrib]
  · rw [hcontrib]
    rfl

/-- C1 witness: a concrete batch with one sound file and one broken file. -/
theorem C1_syntax_error_degraded_witness :
    (analyze_code_files ([goodFile] ++ badFile :: [])).files_analyzed
        = (analyze_code_files ([goodFile] ++ [])).files_analyzed + 1 ∧
    (contrib badFile).files_analyzed = 1 ∧
    (contrib badFile).nAll = (findAssignIdents badFile.content).length := by
  have h := C1_syntax_error_degraded [goodFile] [] badFile (by decide) (by decide)
  exact ⟨h.1, h.2.2.1, h.2.2.2.2⟩

/-- C2 (amended): permuting the input batch leaves every field of the
report produced by `analyze_code_files` unchanged (the aggregation is a
commutative fold and the report depends only on the fold's totals).  The
claim's extension of this invariance to `primary_language` and
`languages_detected` is refuted by `C2_perm_counterexample`. -/
theorem C2_order_invariance (l1 l2 : List PyFile) (h : l1.Perm l2) :
    analyze_code_files l1 = analyze_code_files l2 := by
  rw [analyze_code_files, analyze_code_files, generate_report_eq, generate_report_eq,
    summary_allPatterns, summary_allPatterns, sumC_perm h]

/-- C2 witness: swapping two concrete files leaves the report unchanged. -/
theorem C2_order_invariance_witness :
    analyze_code_files [wfile1, wfile2] = analyze_code_files [wfile2, wfile1] :=
  C2_order_invariance [wfile1, wfile2] [wfile2, wfile1]
    (List.Perm.swap wfile2 wfile1 [])

/-- C2 counterexample: in a tied multi-language batch, swapping the two
files swaps `primary_language` (Python's `max` keeps the first-inserted
bucket on ties, and dict insertion order follows the input order), so the
profile is not invariant under permutation as the claim states. -/
theorem C2_perm_counterexample :
    ([permA, permB] : List SrcFile).Perm [permB, permA] ∧
    (analyze_multi_language_files [permA, permB]).primary_language = "Python" ∧
    (analyze_multi_language_files [permB, permA]).primary_language = "JavaScript" ∧
    ("Python" : String) ≠ "JavaScript" :=
  ⟨List.Perm.swap permB permA [], by decide, by decide, by decide⟩

/-- C3: at the failing input (one function of 150 lines, so the average
function length 150 exceeds 100) the code subtracts only 10 points and
returns 40; the claimed 20-point subtraction would give 30.  The
`elif avg_length > 100` branch of the source is unreachable because any
average above 100 already takes the `avg_length > 50` branch. -/
theorem C3_length_penalty_bug :
    Frac.lt (Frac.ofInt 100)
      ⟨(c3Patterns.function_lengths.sum : Int),
        (c3Patterns.function_lengths.length : Int), by decide⟩ ∧
    calculate_code_quality c3Patterns = 40 ∧ ((40 : Int) ≠ 30) :=
  ⟨by decide, by decide, by decide⟩

/-- C4: the quality score of every batch is an integer clamped to
`[0, 100]`, and any batch containing a non-blank, successfully parsed file
with at least one line scores at least 30. -/
theorem C4_quality_bounds (files : List PyFile) :
    0 ≤ (analyze_code_files files).code_quality_score ∧
    (analyze_code_files files).code_quality_score ≤ 100 ∧
    ((∃ f ∈ files, pyStripIsEmpty f.content = false ∧ 0 < numLines f.content ∧
        ∃ info, f.parse = ParseOutcome.ok info) →
      30 ≤ (analyze_code_files files).code_quality_score) := by
  have hq : (analyze_code_files files).code_quality_score
      = min 100 (max 0 (pyIntF (qualityScoreF (allPatternsOf files)))) := rfl
  rw [hq]
  refine ⟨le_min (by norm_num) (le_max_left 0 _), min_le_left _ _, ?_⟩
  rintro ⟨f, hf, hblank, hlines, info, hparse⟩
  have hcl : (contrib f).total_lines = numLines f.content := by
    rw [contrib, hparse, if_neg (by simp [hblank])]
  have htl : 0 < (allPatternsOf files).total_lines := by
    have h1 : (allPatternsOf files).total_lines
        = (sumC files).total_lines := by
      rw [show (allPatternsOf files).total_lines
          = (summaryOf (allPatternsOf files)).total_lines from rfl,
        summary_allPatterns]
    have h2 := contrib_total_lines_le files f hf
    rw [hcl] at h2
    omega
  obtain ⟨x, hx⟩ := qualityScoreF_pos_lines (allPatternsOf files) htl
  rw [hx]
  have h30 := le_pyIntF_max30 x
  exact le_min (by norm_num) (le_trans h30 (le_max_right 0 _))

/-- C4 witness: a one-file batch with a single assignment scores within the
bounds and at least 30. -/
theorem C4_quality_bounds_witness :
    30 ≤ (analyze_code_files [c4file]).code_quality_score ∧
    (analyze_code_files [c4file]).code_quality_score ≤ 100 :=
  ⟨(C4_quality_bounds [c4file]).2.2
      ⟨c4file, List.mem_singleton.mpr rfl, by decide, by decide,
        ⟨{ variable_names := ["x"] }, rfl⟩⟩,
    (C4_quality_bounds [c4file]).2.1⟩

/-- C5 counterexample: the empty batch yields `code_quality_score = 40`
(the base score: the 30 floor only applies when `total_lines > 0`), not the
documented floor of 30 the claim asserts. -/
theorem C5_empty_score_counterexample :
    (analyze_code_files []).code_quality_score = 40 ∧ ((40 : Int) ≠ 30) :=
  ⟨by decide, by decide⟩

/-- C5 (amended): the empty batch raises no exception (the analysis is a
total function) and returns the profile with `files_analyzed = 0`,
`total_functions = 0` and `code_quality_score = 40` (the base score; the
30 floor applies only to batches with at least one counted line). -/
theorem C5_empty_batch_profile :
    analyze_code_files []
      = { naming_style := "snake_case", naming_confidence := 0,
          documentation_percentage := 0, type_hints_percentage := 0,
          error_handling_style := "basic", code_quality_score := 40,
          total_functions := 0, total_classes := 0, total_lines := 0,
          files_analyzed := 0 } := by decide

/-- C6 (amended): the naming-rule table, per extractor.  In the Style-DNA
extractor (`style_dna.analyze_function`) all four claimed rules hold.  In
`code_analyzer.detect_naming_style` the snake_case, PascalCase and
camelCase rules hold, but there is no UPPER_CASE bucket: an entirely
upper-case identifier containing an underscore is tallied into no bucket
(`caClassify` returns `none`). -/
theorem C6_naming_rule_table (n : String) :
    (pyInStr '_' n = true → pyIsLower n = true →
      dnaClassify n = "snake_case" ∧ caClassify n = some "snake_case") ∧
    (pyInStr '_' n = true → pyIsUpper n = true →
      dnaClassify n = "UPPER_CASE" ∧ caClassify n = none) ∧
    (pyInStr '_' n = false → (strHead n).isUpper = true →
      dnaClassify n = "PascalCase" ∧ caClassify n = some "PascalCase") ∧
    (pyInStr '_' n = false → (strHead n).isLower = true →
      dnaClassify n = "camelCase" ∧ caClassify n = some "camelCase") := by
  refine ⟨?_, ?_, ?_, ?_⟩
  · intro hu hl
    have hup := pyIsLower_pyIsUpper_false n hl
    exact ⟨by simp [dnaClassify, hup, hu], by simp [caClassify, caIsSnake, hu, hl]⟩
  · intro hu hup
    have hlow := pyIsUpper_pyIsLower_false n hup
    exact ⟨by simp [dnaClassify, hup, hu], by simp [caClassify, caIsSnake, hu, hlow]⟩
  · intro hnc hhu
    exact ⟨by simp [dnaClassify, hnc, hhu], by simp [caClassify, caIsSnake, hnc, hhu]⟩
  · intro hnc hhl
    have hhu : (strHead n).isUpper = false := isLower_isUpper_false _ hhl
    exact ⟨by simp [dnaClassify, hnc, hhu],
      by simp [caClassify, caIsSnake, hnc, hhu, hhl]⟩

/-- C6 witness: the rule table applied to a concrete all-caps identifier. -/
theorem C6_naming_rule_table_witness :
    dnaClassify "API_KEY" = "UPPER_CASE" ∧ caClassify "API_KEY" = none :=
  (C6_naming_rule_table "API_KEY").2.1 (by decide) (by decide)

/-- C6 counterexample: `MAX_SIZE` is entirely upper-case with an
underscore, yet `detect_naming_style` classifies it into no bucket (there
is no UPPER_CASE bucket there), and a tally of just `MAX_SIZE` reports
`snake_case` with confidence 0 instead of UPPER_CASE. -/
theorem C6_upper_case_counterexample :
    pyIsUpper "MAX_SIZE" = true ∧ pyInStr '_' "MAX_SIZE" = true ∧
    caClassify "MAX_SIZE" = none ∧
    detect_naming_style ["MAX_SIZE"] = ("snake_case", Frac.ofInt 0) :=
  ⟨by decide, by decide, by decide, by decide⟩

/-- C9: whenever the batch has zero functions but at least one observed
name, the reported `naming_confidence` is at least 30.0 (300 tenths),
whatever the tally. -/
theorem C9_confidence_floor (p : AllPatterns)
    (h1 : p.total_functions = 0)
    (h2 : 0 < (p.function_names ++ p.variable_names ++ p.class_names).length) :
    300 ≤ (generate_report p).naming_confidence := by
  have hr : (generate_report p).naming_confidence
      = round1F
          (if p.total_functions = 0 ∧
              0 < (p.function_names ++ p.variable_names ++ p.class_names).length then
            pyMax2
              (detect_naming_style
                (p.function_names ++ p.variable_names ++ p.class_names)).2
              (Frac.ofInt 30)
          else
            (detect_naming_style
              (p.function_names ++ p.variable_names ++ p.class_names)).2) := rfl
  rw [hr, if_pos ⟨h1, h2⟩]
  exact le300_round1F_max30 _

/-- C9 witness: three variable names, no functions: the reported
confidence is at least 30.0. -/
theorem C9_confidence_floor_witness :
    300 ≤ (generate_report p9).naming_confidence :=
  C9_confidence_floor p9 (by decide) (by decide)

/-- C10: a file whose content is empty or whitespace-only is skipped
entirely: the batch report is identical with and without it. -/
theorem C10_blank_file_skipped (pre suf : List PyFile) (f : PyFile)
    (h : pyStripIsEmpty f.content = true) :
    analyze_code_files (pre ++ f :: suf) = analyze_code_files (pre ++ suf) := by
  have hstep : ∀ acc, processFile acc f = acc := fun acc => by
    rw [processFile, if_pos h]
  rw [analyze_code_files, analyze_code_files, allPatternsOf, allPatternsOf,
    List.foldl_append, List.foldl_append, List.foldl_cons, hstep]

/-- C10 witness: dropping a concrete whitespace-only file leaves the
report of a concrete batch unchanged. -/
theorem C10_blank_file_skipped_witness :
    analyze_code_files ([wfile1] ++ blankFile :: []) = analyze_code_files ([wfile1] ++ []) :=
  C10_blank_file_skipped [wfile1] [] blankFile (by decide)

/-! Lemmas for the multi-language grouping (C7). -/

theorem fo_foldl_mem : ∀ (l acc : List String) (x : String),
    x ∈ l.foldl foStep acc ↔ x ∈ acc ∨ x ∈ l := by
  intro l
  induction l with
  | nil => intro acc x; simp
  | cons y t ih =>
    intro acc x
    rw [List.foldl_cons, ih]
    unfold foStep
    by_cases hy : acc.contains y
    · rw [if_pos hy]
      have hym : y ∈ acc := by simpa [List.elem_iff] using hy
      simp only [List.mem_cons]
      constructor
      · rintro (h | h)
        · exact Or.inl h
        · exact Or.inr (Or.inr h)
      · rintro (h | rfl | h)
        · exact Or.inl h
        · exact Or.inl hym
        · exact Or.inr h
    · rw [if_neg hy]
      simp only [List.mem_append, List.mem_singleton, List.mem_cons]
      tauto

theorem mem_firstOccurrences (l : List String) (x : String) :
    x ∈ firstOccurrences l ↔ x ∈ l := by
  rw [firstOccurrences, fo_foldl_mem]
  simp

theorem fo_foldl_nodup : ∀ (l acc : List String), acc.Nodup → (l.foldl foStep acc).Nodup := by
  intro l
  induction l with
  | nil => intro acc h; simpa using h
  | cons y t ih =>
    intro acc h
    rw [List.foldl_cons]
    apply ih
    unfold foStep
    by_cases hy : acc.contains y
    · rwa [if_pos hy]
    · rw [if_neg hy]
      have hym : y ∉ acc := by simpa [List.elem_iff] using hy
      simp [List.nodup_append, h, hym]

theorem nodup_firstOccurrences (l : List String) : (firstOccurrences l).Nodup :=
  fo_foldl_nodup l [] List.nodup_nil

theorem firstOccurrences_append_mem (l : List String) (x : String) (hx : x ∈ l) :
    firstOccurrences (l ++ [x]) = firstOccurrences l := by
  rw [firstOccurrences, List.foldl_append]
  show foStep (firstOccurrences l) x = _
  unfold foStep
  rw [if_pos (by simpa [List.elem_iff, mem_firstOccurrences] using hx)]

theorem firstOccurrences_append_notmem (l : List String) (x : String) (hx : x ∉ l) :
    firstOccurrences (l ++ [x]) = firstOccurrences l ++ [x] := by
  rw [firstOccurrences, List.foldl_append]
  show foStep (firstOccurrences l) x = _
  unfold foStep
  rw [if_neg (by simpa [List.elem_iff, mem_firstOccurrences] using hx)]

theorem lookup_map_isNone (ls : List String) (v : String → LangStats) (k : String) :
    (((ls.map fun l => (l, v l)).lookup k).isNone) = !ls.contains k := by
  induction ls with
  | nil => rfl
  | cons a t ih =>
    by_cases hk : k = a
    · subst hk
      simp [List.lookup]
    · have h1 : (k == a) = false := beq_false_of_ne hk
      have h2 : (a == k) = false := beq_false_of_ne (Ne.symm hk)
      simp only [List.map_cons, List.lookup, h1, List.contains_cons, h2, Bool.false_or]
      exact ih

theorem updateAssoc_map (ls : List String) (hnd : ls.Nodup) (k : String)
    (g : LangStats → LangStats) (v : String → LangStats) :
    updateAssoc k g (ls.map fun l => (l, v l))
      = ls.map fun l => (l, if l = k then g (v l) else v l) := by
  induction ls with
  | nil => rfl
  | cons a t ih =>
    simp only [List.map_cons, updateAssoc]
    rcases List.nodup_cons.mp hnd with ⟨ha, hnd'⟩
    by_cases hk : a = k
    · rw [if_pos hk, if_pos hk]
      congr 1
      apply List.map_congr_left
      intro l hl
      rw [if_neg]
      intro hlk
      exact ha (by rwa [hlk, ← hk] at hl)
    · rw [if_neg hk, if_neg hk, ih hnd']

theorem updateAssoc_append (l1 l2 : List (String × LangStats)) (k : String)
    (g : LangStats → LangStats) (h : ∀ p ∈ l1, p.1 ≠ k) :
    updateAssoc k g (l1 ++ l2) = l1 ++ updateAssoc k g l2 := by
  induction l1 with
  | nil => rfl
  | cons a t ih =>
    rcases a with ⟨ka, va⟩
    rw [List.cons_append, updateAssoc, if_neg (h ⟨ka, va⟩ (List.mem_cons_self _ _)),
      List.cons_append, ih]
    intro p hp
    exact h p (List.mem_cons_of_mem _ hp)

theorem statsFor_append_same (done : List SrcFile) (f : SrcFile) :
    statsFor (done ++ [f]) (detectedLang f)
      = (fun s : LangStats =>
          ⟨s.file_count + 1, s.total_lines + numLines f.content,
            s.total_size + f.content.toList.length⟩) (statsFor done (detectedLang f)) := by
  simp only [statsFor, List.countP_append, List.filter_append, List.map_append,
    List.sum_append]
  simp [List.countP_cons, List.filter_cons]

theorem statsFor_append_other (done : List SrcFile) (f : SrcFile) (l : String)
    (hl : l ≠ detectedLang f) :
    statsFor (done ++ [f]) l = statsFor done l := by
  have hb : (detectedLang f == l) = false := beq_false_of_ne (Ne.symm hl)
  simp only [statsFor, List.countP_append, List.filter_append, List.map_append,
    List.sum_append]
  simp [List.countP_cons, List.filter_cons, hb]

theorem statsFor_notmem (done : List SrcFile) (l : String)
    (hl : l ∉ done.map detectedLang) :
    statsFor done l = ⟨0, 0, 0⟩ := by
  have hc : ∀ f ∈ done, (detectedLang f == l) = false := by
    intro f hf
    refine beq_false_of_ne fun he => hl ?_
    rw [← he]
    exact List.mem_map_of_mem _ hf
  simp only [statsFor]
  rw [List.countP_eq_zero.mpr (by simpa using hc),
    List.filter_eq_nil_iff.mpr (by simpa using hc)]
  rfl

theorem mkStats_snoc (done : List SrcFile) (f : SrcFile) (st : MLState)
    (hst : st.stats = mkStats done) :
    (mlStep st f).stats = mkStats (done ++ [f]) := by
  have hbump :
      (mlStep st f).stats =
        updateAssoc (detectedLang f)
          (fun s =>
            ⟨s.file_count + 1, s.total_lines + numLines f.content,
              s.total_size + f.content.toList.length⟩)
          (if ((st.stats.lookup (detectedLang f)).isNone) then
            st.stats ++ [(detectedLang f, ⟨0, 0, 0⟩)]
          else st.stats) := by
    simp only [mlStep, apply_ite MLState.stats]
  rw [hbump, hst, mkStats, lookup_map_isNone]
  by_cases hmem : detectedLang f ∈ done.map detectedLang
  · have hcont : (firstOccurrences (done.map detectedLang)).contains (detectedLang f)
        = true := by
      simp [List.elem_iff, mem_firstOccurrences, hmem]
    rw [hcont]
    simp only [Bool.not_true, Bool.false_eq_true, if_false]
    rw [updateAssoc_map _ (nodup_firstOccurrences _), mkStats]
    have hfo : firstOccurrences ((done ++ [f]).map detectedLang)
        = firstOccurrences (done.map detectedLang) := by
      rw [List.map_append, List.map_cons, List.map_nil]
      exact firstOccurrences_append_mem _ _ hmem
    rw [hfo]
    apply List.map_congr_left
    intro l hl
    by_cases hlf : l = detectedLang f
    · subst hlf
      rw [if_pos rfl, statsFor_append_same]
    · rw [if_neg hlf, statsFor_append_other _ _ _ hlf]
  · have hcont : (firstOccurrences (done.map detectedLang)).contains (detectedLang f)
        = false := by
      simp [List.elem_iff, mem_firstOccurrences, hmem]
    rw [hcont]
    simp only [Bool.not_false, if_true]
    rw [updateAssoc_append _ _ _ _ (by
      intro p hp
      obtain ⟨l, hl, rfl⟩ := List.mem_map.mp hp
      intro he
      exact hmem (by rw [← he]; exact (mem_firstOccurrences _ _).mp hl))]
    have hfo : firstOccurrences ((done ++ [f]).map detectedLang)
        = firstOccurrences (done.map detectedLang) ++ [detectedLang f] := by
      rw [List.map_append, List.map_cons, List.map_nil]
      exact firstOccurrences_append_notmem _ _ hmem
    rw [mkStats, hfo, List.map_append, List.map_cons, List.map_nil]
    congr 1
    · apply List.map_congr_left
      intro l hl
      rw [statsFor_append_other _ _ _ (by
        intro he
        exact hmem (by rw [← he]; exact (mem_firstOccurrences _ _).mp hl))]
    · rw [statsFor_append_same, statsFor_notmem _ _ hmem, updateAssoc, if_pos rfl]

theorem analyze_stats_closed (files : List SrcFile) :
    (analyze_multi_language_files files).language_stats = mkStats files := by
  suffices h : ∀ (rest done : List SrcFile) (st : MLState), st.stats = mkStats done →
      (rest.foldl mlStep st).stats = mkStats (done ++ rest) by
    have := h files [] {} rfl
    simpa [analyze_multi_language_files] using this
  intro rest
  induction rest with
  | nil => intro done st hst; simpa using hst
  | cons f t ih =>
    intro done st hst
    rw [List.foldl_cons]
    have := ih (done ++ [f]) (mlStep st f) (mkStats_snoc done f st hst)
    simpa using this

theorem foldl_maxStep_split :
    ∀ (xs : List (String × LangStats)) (x : String × LangStats),
      ∃ l1 l2, x :: xs = l1 ++ (xs.foldl maxStep x) :: l2 ∧
        (∀ y ∈ l1, y.2.file_count < (xs.foldl maxStep x).2.file_count) ∧
        (∀ y ∈ l2, y.2.file_count ≤ (xs.foldl maxStep x).2.file_count) := by
  intro xs
  induction xs with
  | nil =>
    intro x
    exact ⟨[], [], rfl, by simp, by simp⟩
  | cons y t ih =>
    intro x
    rw [List.foldl_cons]
    obtain ⟨m1, m2, heq, h1, h2⟩ := ih (maxStep x y)
    have hr_ge : (maxStep x y).2.file_count
        ≤ (t.foldl maxStep (maxStep x y)).2.file_count := by
      cases m1 with
      | nil =>
        have hd := congrArg (fun l => l.headD (maxStep x y)) heq
        simp only [List.nil_append, List.headD_cons] at hd
        rw [← hd]
      | cons a m1' =>
        have hd := congrArg (fun l => l.headD a) heq
        simp only [List.cons_append, List.headD_cons] at hd
        exact le_of_lt (hd ▸ h1 a (List.mem_cons_self a m1'))
    by_cases hxy : x.2.file_count < y.2.file_count
    · have hms : maxStep x y = y := if_pos hxy
      refine ⟨x :: m1, m2, ?_, ?_, h2⟩
      · rw [List.cons_append, ← heq, hms]
      · intro z hz
        rcases List.mem_cons.mp hz with rfl | hz'
        · refine lt_of_lt_of_le ?_ hr_ge
          rw [hms]
          exact hxy
        · exact h1 z hz'
    · have hms : maxStep x y = x := if_neg hxy
      rw [hms] at heq h1 h2 hr_ge ⊢
      cases m1 with
      | nil =>
        rw [List.nil_append] at heq
        have hx : x = t.foldl maxStep x := by injection heq
        have ht : t = m2 := by injection heq
        refine ⟨[], y :: m2, ?_, by simp, ?_⟩
        · rw [List.nil_append, ← hx, ht]
        · intro z hz
          rcases List.mem_cons.mp hz with rfl | hz'
          · exact le_trans (le_of_not_lt hxy) hr_ge
          · exact h2 z hz'
      | cons a m1' =>
        rw [List.cons_append] at heq
        have hx : x = a := by injection heq
        have ht : t = m1' ++ t.foldl maxStep x :: m2 := by injection heq
        refine ⟨x :: y :: m1', m2, ?_, ?_, h2⟩
        · rw [List.cons_append, List.cons_append, ← ht]
        · intro z hz
          have hxr : x.2.file_count < (t.foldl maxStep x).2.file_count := by
            have := h1 a (List.mem_cons_self a m1')
            rwa [← hx] at this
          rcases List.mem_cons.mp hz with rfl | hz'
          · exact hxr
          · rcases List.mem_cons.mp hz' with rfl | hz''
            · exact lt_of_le_of_lt (le_of_not_lt hxy) hxr
            · exact h1 z (List.mem_cons_of_mem a hz'')

/-- C7 (amended): for a nonempty batch, `language_stats` is exactly one
bucket per detected language, listed in order of first appearance in the
input, each carrying that language's file count; and `primary_language` is
a bucket of maximal file count that strictly beats every bucket listed
before it — i.e. ties are broken by earliest first appearance in the input
(not by extension-table registration order, which `C7_table_order_counterexample`
refutes). -/
theorem C7_primary_first_appearance (files : List SrcFile) (h : files ≠ []) :
    (analyze_multi_language_files files).language_stats = mkStats files ∧
    ∃ l1 l2 s,
      (analyze_multi_language_files files).language_stats
          = l1 ++ ((analyze_multi_language_files files).primary_language, s) :: l2 ∧
      (∀ y ∈ l1, y.2.file_count < s.file_count) ∧
      (∀ y ∈ l2, y.2.file_count ≤ s.file_count) := by
  have hstats := analyze_stats_closed files
  have hne : (analyze_multi_language_files files).language_stats ≠ [] := by
    rcases files with _ | ⟨f, t⟩
    · exact absurd rfl h
    · rw [hstats]
      intro habs
      have hm : detectedLang f ∈ firstOccurrences ((f :: t).map detectedLang) := by
        rw [mem_firstOccurrences]
        exact List.mem_map_of_mem _ (List.mem_cons_self f t)
      rw [mkStats, List.map_eq_nil] at habs
      rw [habs] at hm
      exact absurd hm (List.not_mem_nil _)
  obtain ⟨g, gs, hgs⟩ := List.exists_cons_of_ne_nil hne
  have hst : (files.foldl mlStep {}).stats = g :: gs := hgs
  have hprim : (analyze_multi_language_files files).primary_language
      = (gs.foldl maxStep g).1 := by
    show (match pyMaxByCount ((files.foldl mlStep {}).stats) with
      | some p => p.1 | none => "Unknown") = _
    rw [hst]
    rfl
  obtain ⟨l1, l2, heq, h1, h2⟩ := foldl_maxStep_split gs g
  refine ⟨hstats, l1, l2, (gs.foldl maxStep g).2, ?_, h1, h2⟩
  rw [hprim, hgs, heq]

/-- C7 witness: the closed form of `language_stats` for a concrete
single-file batch. -/
theorem C7_primary_first_appearance_witness :
    (analyze_multi_language_files [c7wFile]).language_stats = mkStats [c7wFile] :=
  (C7_primary_first_appearance [c7wFile] (List.cons_ne_nil _ _)).1

/-- C7 counterexample: a JavaScript file followed by a Python file tie at
one file each; the code picks `JavaScript` (earliest first appearance),
while the claimed extension-table tie-break (where Python is registered
first) picks `Python`. -/
theorem C7_table_order_counterexample :
    (analyze_multi_language_files [tieJsFile, tiePyFile]).language_stats
        = [("JavaScript", ⟨1, 2, 11⟩), ("Python", ⟨1, 2, 10⟩)] ∧
    (analyze_multi_language_files [tieJsFile, tiePyFile]).primary_language
        = "JavaScript" ∧
    specPrimaryByTableOrder
        (analyze_multi_language_files [tieJsFile, tiePyFile]).language_stats
        = "Python" ∧
    ("JavaScript" : String) ≠ "Python" :=
  ⟨by decide, by decide, by decide, by decide⟩

/-- C8 (amended): the classifier is a pure function of filename and
content, and returns `Unknown` exactly when the extension lookup fails
(case-insensitively) and no content signature fires — where every
signature except the CSS one is checked on the lower-cased first 500
characters, and the CSS signature on the entire original content
(`C8_css_full_scan_counterexample` shows the claim's "first ~500
characters" reading is wrong for the CSS signature). -/
theorem C8_unknown_when_no_signature (filename content : String)
    (hext : (if pyInStr '.' filename then
        get_language_from_extension
          (String.mk ('.' :: pyLower ((splitOnChar '.' filename.toList).getLastD [])))
      else "Unknown") = "Unknown")
    (hpy : ¬(sigPython (pyLower (content.toList.take 500)) = true ∧
        hasShebang (pyLower (content.toList.take 500)) = true))
    (hjs : sigJS (pyLower (content.toList.take 500)) = false)
    (hjava : sigJava (pyLower (content.toList.take 500)) = false)
    (hinc : sigInclude (pyLower (content.toList.take 500)) = false)
    (hhtml : sigHTML (pyLower (content.toList.take 500)) = false)
    (hcss : sigCSS content = false) :
    detect_language_from_content filename content = "Unknown" := by
  unfold detect_language_from_content
  simp only []
  rw [hext]
  simp only [String.toList] at hpy hjs hjava hinc hhtml
  simp [hpy, hjs, hjava, hinc, hhtml, hcss]

/-- C8 witness: a `.xyz` file with unrecognizable content classifies as
`Unknown`. -/
theorem C8_unknown_when_no_signature_witness :
    detect_language_from_content "data.xyz" "qq qq" = "Unknown" :=
  C8_unknown_when_no_signature "data.xyz" "qq qq" (by decide) (by decide) (by decide)
    (by decide) (by decide) (by decide) (by decide)

set_option maxRecDepth 40000 in
/-- C8 counterexample: a `.xyz` file whose first 500 characters match no
signature still classifies as `CSS`, because the CSS regex scans the full
content and finds `@media` beyond position 500; on the truncated content
the classifier returns `Unknown`. -/
theorem C8_css_full_scan_counterexample :
    detect_language_from_content "widget.xyz" zContent = "CSS" ∧
    detect_language_from_content "widget.xyz" (String.mk (zContent.toList.take 500))
        = "Unknown" ∧
    ("CSS" : String) ≠ "Unknown" :=
  ⟨by decide, by decide, by decide⟩

end Vibe
